import Mathlib

/-!
# mapperoni: the page store of `pkg/mmap/_mapper.go`

A shallow embedding of the page-based record store (`align`, `GetMeta`,
`FindEmpty`, `Write`, `write`, `grow` and the recovery loop of `OpenMapper`)
together with theorems about it.

Modelling conventions.

* Go's `int` is the 64-bit two's-complement integer: values are `Int`s and every
  run-time addition, subtraction and multiplication is followed by `wrap64`.
* The mapped region `MMap` (`[]byte` returned by `unix.Mmap`, so `cap = len`) is
  a length together with a byte at every offset below the length.
* A call either returns, or panics (index or slice bound out of range, nil
  dereference), or is still running when the fuel of the model is used up.
  Fuel counts evaluations of a loop condition.
-/

namespace Mapperoni

/-! ## Constants -/

def KB : Int := 1024
def MB : Int := 1048576
/-- The page size, `4 * KB`. -/
def PAGE : Int := 4 * KB
/-- The empty page marker. -/
def EMPTY : UInt8 := 0xC1

/-! ## Machine integers -/

/-- The value of a 64-bit two's-complement `int` holding the integer `x` modulo `2^64`. -/
def wrap64 (x : Int) : Int :=
  (x + 9223372036854775808) % 18446744073709551616 - 9223372036854775808

/-- The 64 bits of an `int`, read as an unsigned number. -/
def toU64 (x : Int) : Nat := (x % 18446744073709551616).toNat

/-- Go's bit clear `x &^ y` on 64-bit `int`s: the bits of `x` that are not set in `y`. -/
def andNot64 (x y : Int) : Int :=
  wrap64 (Int.ofNat (toU64 x &&& (18446744073709551615 - toU64 y)))

/-- The function `align` of the source. -/
def align (size : Int) : Int :=
  if size > 0 then
    andNot64 (wrap64 (wrap64 (wrap64 (size + 2) + PAGE) - 1)) (PAGE - 1)
  else
    PAGE

/-! ## Outcomes of a call -/

/-- What a call of the model does: return a value, panic, or use up its fuel. -/
inductive Outcome (α : Type) where
  | ret : α → Outcome α
  | fault : Outcome α
  | timeout : Outcome α

/-- The returned value, if the call returned. -/
def Outcome.returned {α : Type} : Outcome α → Option α
  | .ret a => some a
  | .fault => none
  | .timeout => none

/-! ## The mapped region and the store -/

/-- The memory mapping: `len` bytes, `byte k` being the byte at offset `k < len`. -/
structure MMap where
  len : Nat
  byte : Nat → UInt8

/-- The struct `Mapper` (the file handle plays no part in the page logic). -/
structure Mapper where
  data : MMap
  count : Int
  cursor : Int

/-- The anonymous struct returned by `GetMeta`. -/
structure PageMeta where
  IsEmpty : Bool
  PgCount : Int

/-- The indexing `m.data[off]`: `none` is the out-of-range panic. -/
def MMap.index (d : MMap) (off : Int) : Option UInt8 :=
  if 0 ≤ off ∧ off < (d.len : Int) then some (d.byte off.toNat) else none

/-- The assignment `m.data[off] = v`: `none` is the out-of-range panic. -/
def MMap.store (d : MMap) (off : Int) (v : UInt8) : Option MMap :=
  if 0 ≤ off ∧ off < (d.len : Int) then
    some { d with byte := fun k => if k = off.toNat then v else d.byte k }
  else none

/-- The statement `copy(m.data[lo:hi], b)`: the slice expression panics unless
`0 ≤ lo ≤ hi ≤ cap`, and `copy` moves `min (hi - lo) (len b)` bytes. -/
def MMap.copyInto (d : MMap) (lo hi : Int) (b : List UInt8) : Option MMap :=
  if 0 ≤ lo ∧ lo ≤ hi ∧ hi ≤ (d.len : Int) then
    let n : Nat := min (hi - lo).toNat b.length
    some { d with byte := fun k =>
      if lo.toNat ≤ k ∧ k < lo.toNat + n then b.getD (k - lo.toNat) 0 else d.byte k }
  else none

/-- The method `GetMeta`: `ret none` is the nil result. -/
def GetMeta (m : Mapper) (pos : Int) : Outcome (Option PageMeta) :=
  let off := wrap64 (pos * PAGE)
  if Int.tmod off PAGE ≠ 0 then .ret none
  else
    match m.data.index off with
    | none => .fault
    | some marker =>
      match m.data.index (wrap64 (off + 1)) with
      | none => .fault
      | some run => .ret (some ⟨marker == EMPTY, (run.toNat : Int)⟩)

/-- The loop of `FindEmpty`, `npages` being its local counter. -/
def FindEmptyLoop : Nat → Mapper → Int → Int → Outcome (Mapper × Int × Bool)
  | 0, _, _, _ => .timeout
  | fuel + 1, m, n, npages =>
    if m.cursor < (m.data.len : Int) then
      if npages = n then .ret (m, Int.tdiv m.cursor PAGE, true)
      else
        match GetMeta m m.cursor with
        | .timeout => .timeout
        | .fault => .fault
        | .ret none => .fault
        | .ret (some pm) =>
          if pm.IsEmpty then
            FindEmptyLoop fuel { m with cursor := wrap64 (m.cursor + 1) } n (wrap64 (npages + 1))
          else
            FindEmptyLoop fuel { m with cursor := wrap64 (m.cursor + pm.PgCount) } n 0
    else .ret (m, Int.tdiv m.cursor PAGE, false)

/-- The method `FindEmpty`: the store after the call, the index and the flag. -/
def FindEmpty (fuel : Nat) (m : Mapper) (n : Int) : Outcome (Mapper × Int × Bool) :=
  FindEmptyLoop fuel m n 0

/-- The method `grow`: a stub that returns a nil error. -/
def grow (m : Mapper) : Mapper × Option String := (m, none)

/-- The method `write`. -/
def write (m : Mapper) (off pgs : Int) (b : List UInt8) : Outcome Mapper :=
  match m.data.store (wrap64 (off + 1)) (UInt8.ofNat (toU64 pgs)) with
  | none => .fault
  | some d1 =>
    match d1.copyInto (wrap64 (off + 2)) (wrap64 (wrap64 (off + 2) + pgs)) b with
    | none => .fault
    | some d2 => .ret { m with data := d2 }

/-- The method `Write`: the store after the call, the index and the error. -/
def Write (fuel : Nat) (m : Mapper) (b : List UInt8) : Outcome (Mapper × Int × Option String) :=
  let pgs := align (b.length : Int)
  match FindEmpty fuel m pgs with
  | .timeout => .timeout
  | .fault => .fault
  | .ret (m1, pos, true) =>
    match write m1 (wrap64 (pos * PAGE)) pgs b with
    | .timeout => .timeout
    | .fault => .fault
    | .ret m2 => .ret (m2, pos, none)
  | .ret (m1, pos, false) =>
    match grow m1 with
    | (m2, some err) => .ret (m2, -1, some err)
    | (m2, none) =>
      match write m2 (wrap64 (pos * PAGE)) pgs b with
      | .timeout => .timeout
      | .fault => .fault
      | .ret m3 => .ret (m3, pos, none)

/-- The loop of `OpenMapper` that populates the record count; `size` is `fi.Size()`. -/
def OpenMapperLoop : Nat → Mapper → Int → Outcome Mapper
  | 0, _, _ => .timeout
  | fuel + 1, m, size =>
    if m.cursor < size then
      match GetMeta m m.cursor with
      | .timeout => .timeout
      | .fault => .fault
      | .ret none => .fault
      | .ret (some pm) =>
        if pm.IsEmpty then
          OpenMapperLoop fuel { m with cursor := wrap64 (m.cursor + 1) } size
        else
          OpenMapperLoop fuel
            { m with count := wrap64 (m.count + 1), cursor := wrap64 (m.cursor + pm.PgCount) } size
    else .ret m

/-- The function `OpenMapper` from the creation of the instance on: `data` is the
mapping of the whole file, so `fi.Size()` is its length. The result is the pair
of the instance and the error. -/
def OpenMapper (fuel : Nat) (data : MMap) : Outcome (Mapper × Option String) :=
  match OpenMapperLoop fuel ⟨data, 0, 0⟩ (data.len : Int) with
  | .timeout => .timeout
  | .fault => .fault
  | .ret m => .ret ({ m with cursor := 0 }, none)

/-! ## Page grids -/

/-- Page `p` of the mapping lies inside it and carries the free marker. -/
def pageFree (d : MMap) (p : Int) : Prop :=
  0 ≤ p ∧ p * 4096 < (d.len : Int) ∧ d.byte (p * 4096).toNat = EMPTY

/-- The page indices the recovery loop of `OpenMapper` visits on the mapping `d`:
page 0, the page after a visited free page, and the page a visited occupied
header points past. A visited header lies inside the mapping. -/
inductive RecoveryVisits (d : MMap) : Int → Prop where
  | start : RecoveryVisits d 0
  | afterFree {c : Int} : RecoveryVisits d c → 0 ≤ c → c * 4096 + 1 < (d.len : Int) →
      d.byte (c * 4096).toNat = EMPTY → RecoveryVisits d (c + 1)
  | afterRun {c : Int} : RecoveryVisits d c → 0 ≤ c → c * 4096 + 1 < (d.len : Int) →
      d.byte (c * 4096).toNat ≠ EMPTY →
      RecoveryVisits d (c + ((d.byte (c * 4096 + 1).toNat).toNat : Int))

/-- A mapping of `len` bytes in which every page starts with the free marker and
every other byte is zero: the content `OpenMapper` gives a file it creates. -/
def freeGrid (len : Nat) : MMap :=
  ⟨len, fun k => if k % 4096 = 0 then EMPTY else 0⟩

/-- The file `OpenMapper` creates when the path does not exist: 4 MB, all pages free. -/
def newFile : MMap := freeGrid 4194304

/-- A grid of one occupied page: marker `0x01`, run length 1. -/
def onePageOccupied : MMap :=
  ⟨4096, fun k => if k = 0 then 1 else if k = 1 then 1 else 0⟩

/-- A grid of two pages: page 0 occupied (marker `0x01`, run length 1), page 1 free. -/
def occupiedThenFree : MMap :=
  ⟨8192, fun k => if k = 0 then 1 else if k = 1 then 1 else if k = 4096 then EMPTY else 0⟩

/-- A grid of one page whose header is occupied (marker `0x00`) with run length 0. -/
def zeroRunPage : MMap := ⟨4096, fun _ => 0⟩

/-- A grid of 4097 free pages. -/
def bigGrid : MMap := freeGrid 16781312

/-- A payload of ten bytes. -/
def tenBytes : List UInt8 := [1, 2, 3, 4, 5, 6, 7, 8, 9, 10]

/-- The mapping of `bigGrid` after `Write` has stored `tenBytes` at page 1. -/
def bigGridWritten : MMap :=
  ⟨16781312, fun k =>
    if 4098 ≤ k ∧ k < 4098 + 10 then tenBytes.getD (k - 4098) 0
    else if k = 4097 then 0 else bigGrid.byte k⟩

/-! ## Machine arithmetic -/

theorem wrap64_of_range (x : Int) (h1 : -9223372036854775808 ≤ x) (h2 : x < 9223372036854775808) :
    wrap64 x = x := by
  unfold wrap64
  omega

theorem wrap64_range (x : Int) :
    -9223372036854775808 ≤ wrap64 x ∧ wrap64 x < 9223372036854775808 := by
  unfold wrap64
  omega

theorem and_clear_low12 (x : Nat) (hx : x < 18446744073709551616) :
    x &&& 18446744073709547520 = x - x % 4096 := by
  have hM : (18446744073709547520 : Nat) = 2 ^ 64 - (4095 + 1) := by norm_num
  have hR : x - x % 4096 = 2 ^ 12 * (x >>> 12) := by
    rw [Nat.shiftRight_eq_div_pow]
    have := Nat.div_add_mod x 4096
    norm_num
    omega
  rw [hR, hM]
  apply Nat.eq_of_testBit_eq
  intro i
  rw [Nat.testBit_and, Nat.testBit_two_pow_sub_succ (by norm_num) i, Nat.testBit_mul_pow_two,
    Nat.testBit_shiftRight]
  have h4095 : Nat.testBit 4095 i = decide (i < 12) := by
    have := Nat.testBit_two_pow_sub_one 12 i
    simpa using this
  rw [h4095]
  by_cases h12 : 12 ≤ i
  · have e : 12 + (i - 12) = i := by omega
    rw [e]
    by_cases h64 : i < 64
    · simp [h12, h64]
    · have hlt : x < 2 ^ i := by
        calc x < 2 ^ 64 := by simpa using hx
          _ ≤ 2 ^ i := Nat.pow_le_pow_right (by norm_num) (by omega)
      simp [Nat.testBit_lt_two_pow hlt]
  · have : i < 12 := by omega
    simp [this]

theorem andNot64_page (x : Int) (h0 : 0 ≤ x) (h1 : x < 9223372036854775808) :
    andNot64 x (PAGE - 1) = x - x % 4096 := by
  unfold andNot64 toU64 PAGE KB
  have hx : (x % 18446744073709551616).toNat = x.toNat := by omega
  have hm : (((4 * 1024 - 1 : Int)) % 18446744073709551616).toNat = 4095 := by decide
  rw [hx, hm]
  have hlt : x.toNat < 18446744073709551616 := by omega
  have hk : (18446744073709551615 - 4095 : Nat) = 18446744073709547520 := by norm_num
  rw [hk, and_clear_low12 _ hlt]
  rw [wrap64_of_range]
  · simp only [Int.ofNat_eq_coe]
    omega
  · simp only [Int.ofNat_eq_coe]
    omega
  · simp only [Int.ofNat_eq_coe]
    omega


theorem align_pos_size (s : Int) (h0 : 0 < s) (h1 : s + 4097 < 9223372036854775808) :
    align s = (s + 4097) - (s + 4097) % 4096 := by
  unfold align
  rw [if_pos h0]
  have hw : wrap64 (wrap64 (wrap64 (s + 2) + PAGE) - 1) = s + 4097 := by
    unfold wrap64 PAGE KB
    omega
  rw [hw, andNot64_page (s + 4097) (by omega) h1]

/-- For a size so large that `size + 4097` overflows, `align` wraps to a negative
number. -/
theorem align_large (s : Int) (h1 : 9223372036854775808 ≤ s + 4097)
    (h2 : s < 9223372036854775808) :
    align s < 0 ∧ -9223372036854775808 ≤ align s := by
  unfold align
  rw [if_pos (by omega)]
  have hw : wrap64 (wrap64 (wrap64 (s + 2) + PAGE) - 1) = s + 4097 - 18446744073709551616 := by
    unfold wrap64 PAGE KB
    omega
  rw [hw]
  unfold andNot64 toU64 PAGE KB
  have hx : ((s + 4097 - 18446744073709551616) % 18446744073709551616).toNat
      = (s + 4097).toNat := by omega
  have hm : (((4 * 1024 - 1 : Int)) % 18446744073709551616).toNat = 4095 := by decide
  rw [hx, hm]
  have hk : (18446744073709551615 - 4095 : Nat) = 18446744073709547520 := by norm_num
  rw [hk, and_clear_low12 _ (by omega)]
  simp only [Int.ofNat_eq_coe]
  unfold wrap64
  omega

/-- Claim C6. Alignment correctness of `align`. For every payload size `s ≥ 0`
with `s + 4097` representable as an `int`, `align s` is a positive multiple of
the page size 4096, `align s ≥ s + 2` and `align s < s + 2 + 4096`, and it is
the least multiple of 4096 that is at least `s + 2`; and for every `s ≤ 0`,
`align s = 4096`, exactly one page. -/
theorem align_correct (s : Int) :
    (0 ≤ s → s + 4097 < 9223372036854775808 →
      (∃ k : Int, 0 < k ∧ align s = k * PAGE) ∧ s + 2 ≤ align s ∧ align s < s + 2 + PAGE ∧
      (∀ k : Int, s + 2 ≤ k * PAGE → align s ≤ k * PAGE)) ∧
    (s ≤ 0 → align s = PAGE) := by
  constructor
  · intro h0 h1
    rcases lt_or_eq_of_le h0 with hpos | hz
    · rw [align_pos_size s hpos h1]
      unfold PAGE KB
      refine ⟨⟨(s + 4097) / 4096, by omega, by omega⟩, by omega, by omega, ?_⟩
      intro k hk
      omega
    · subst hz
      clear h0 h1
      have : align 0 = 4096 := by decide
      rw [this]
      unfold PAGE KB
      refine ⟨⟨1, by decide, by decide⟩, by decide, by decide, ?_⟩
      intro k hk
      omega
  · intro h
    unfold align
    rw [if_neg (by omega)]

theorem align_correct_witness :
    ((∃ k : Int, 0 < k ∧ align 10 = k * PAGE) ∧ (10 : Int) + 2 ≤ align 10 ∧
      align 10 < 10 + 2 + PAGE ∧ (∀ k : Int, (10 : Int) + 2 ≤ k * PAGE → align 10 ≤ k * PAGE)) ∧
    align 0 = PAGE :=
  ⟨(align_correct 10).1 (by decide) (by decide), (align_correct 0).2 (by decide)⟩

/-! ## Reading a page header -/

/-- The method `GetMeta` at a page index below `2^51`: the header is read when both of its
bytes lie inside the mapping, and the call panics otherwise. -/
theorem GetMeta_eq (m : Mapper) (p : Int) (h0 : 0 ≤ p) (h1 : p < 2251799813685248) :
    GetMeta m p =
      if p * 4096 + 1 < (m.data.len : Int) then
        .ret (some ⟨m.data.byte (p * 4096).toNat == EMPTY,
          ((m.data.byte (p * 4096 + 1).toNat).toNat : Int)⟩)
      else .fault := by
  have hoff : wrap64 (p * PAGE) = p * 4096 := by
    have : p * PAGE = p * 4096 := by unfold PAGE KB; norm_num
    rw [this]
    exact wrap64_of_range (p * 4096) (by omega) (by omega)
  have hoff1 : wrap64 (p * 4096 + 1) = p * 4096 + 1 :=
    wrap64_of_range (p * 4096 + 1) (by omega) (by omega)
  have htm : Int.tmod (p * 4096) PAGE = 0 := by
    have : PAGE = 4096 := by decide
    rw [this]
    exact Int.mul_tmod_left p 4096
  unfold GetMeta
  simp only [hoff, htm, hoff1, ne_eq, not_true_eq_false, if_false, MMap.index]
  by_cases h : p * 4096 + 1 < (m.data.len : Int)
  · have ha : 0 ≤ p * 4096 ∧ p * 4096 < (m.data.len : Int) := by omega
    have hb : 0 ≤ p * 4096 + 1 ∧ p * 4096 + 1 < (m.data.len : Int) := by omega
    simp only [ha, hb, h, and_self, if_true]
  · by_cases ha : 0 ≤ p * 4096 ∧ p * 4096 < (m.data.len : Int)
    · have hb : ¬ (0 ≤ p * 4096 + 1 ∧ p * 4096 + 1 < (m.data.len : Int)) := by omega
      simp only [ha, h, and_self, and_false, if_true, if_false]
    · simp only [ha, h, if_false]

/-! ## The scanner -/

theorem FindEmptyLoop_success (n : Int) :
    ∀ (fuel : Nat) (m : Mapper) (np : Int) (m' : Mapper) (i : Int),
      m.data.len ≤ 2251799813685248 → 0 ≤ np → np ≤ m.cursor →
      (∀ p : Int, m.cursor - np ≤ p → p < m.cursor → pageFree m.data p) →
      FindEmptyLoop fuel m n np = .ret (m', i, true) →
      m.cursor - np + n ≤ m'.cursor ∧
      (∀ p : Int, m'.cursor - n ≤ p → p < m'.cursor → pageFree m.data p) ∧
      i = Int.tdiv m'.cursor PAGE ∧ m'.data = m.data ∧ m'.count = m.count := by
  intro fuel
  induction fuel with
  | zero =>
    intro m np m' i _ _ _ _ h
    simp [FindEmptyLoop] at h
  | succ fuel ih =>
    intro m np m' i hlen hnp hle hfree h
    rw [FindEmptyLoop] at h
    by_cases hlt : m.cursor < (m.data.len : Int)
    · rw [if_pos hlt] at h
      by_cases hn : np = n
      · rw [if_pos hn] at h
        injection h with h
        injection h with h1 h2
        injection h2 with h2 _
        subst h1
        subst hn
        refine ⟨by omega, ?_, h2.symm, rfl, rfl⟩
        intro p hp1 hp2
        exact hfree p hp1 hp2
      · rw [if_neg hn, GetMeta_eq m m.cursor (by omega) (by omega)] at h
        by_cases hin : m.cursor * 4096 + 1 < (m.data.len : Int)
        · rw [if_pos hin] at h
          simp only at h
          have hpg := UInt8.toNat_lt (m.data.byte (m.cursor * 4096 + 1).toNat)
          by_cases hE : (m.data.byte (m.cursor * 4096).toNat == EMPTY) = true
          · rw [if_pos hE] at h
            have e1 : wrap64 (m.cursor + 1) = m.cursor + 1 :=
              wrap64_of_range _ (by omega) (by omega)
            have e2 : wrap64 (np + 1) = np + 1 := wrap64_of_range _ (by omega) (by omega)
            rw [e1, e2] at h
            have hcur : pageFree m.data m.cursor :=
              ⟨by omega, by omega, by simpa using hE⟩
            have := ih { m with cursor := m.cursor + 1 } (np + 1) m' i hlen (by omega)
              (by simp only; omega)
              (by
                intro p hp1 hp2
                simp only at hp1 hp2
                by_cases hpc : p = m.cursor
                · subst hpc; exact hcur
                · exact hfree p (by omega) (by omega))
              h
            simp only at this
            obtain ⟨a, b, c, d, e⟩ := this
            exact ⟨by omega, b, c, d, e⟩
          · rw [if_neg hE] at h
            have e1 : wrap64 (m.cursor + ((m.data.byte (m.cursor * 4096 + 1).toNat).toNat : Int))
                = m.cursor + ((m.data.byte (m.cursor * 4096 + 1).toNat).toNat : Int) :=
              wrap64_of_range _ (by omega) (by omega)
            rw [e1] at h
            have := ih { m with cursor := m.cursor +
                ((m.data.byte (m.cursor * 4096 + 1).toNat).toNat : Int) } 0 m' i hlen
              (by omega) (by simp only; omega)
              (by
                intro p hp1 hp2
                simp only at hp1 hp2
                omega)
              h
            simp only at this
            obtain ⟨a, b, c, d, e⟩ := this
            exact ⟨by omega, b, c, d, e⟩
        · rw [if_neg hin] at h
          simp at h
    · rw [if_neg hlt] at h
      simp at h

/-- Scanning `j` free pages in a row takes `j` iterations and adds `j` to the
cursor and to the counter. -/
theorem FindEmptyLoop_free_run (d : MMap) (cnt n : Int) (hlen : d.len ≤ 2251799813685248) :
    ∀ (j fuel : Nat) (c np : Int), 0 ≤ c → 0 ≤ np → np + j ≤ n →
      n < 9223372036854775808 →
      (∀ p : Int, c ≤ p → p < c + j →
        p * 4096 + 1 < (d.len : Int) ∧ d.byte (p * 4096).toNat = EMPTY) →
      FindEmptyLoop (fuel + j) ⟨d, cnt, c⟩ n np = FindEmptyLoop fuel ⟨d, cnt, c + j⟩ n (np + j) := by
  intro j
  induction j with
  | zero =>
    intro fuel c np _ _ _ _ _
    simp
  | succ j ih =>
    intro fuel c np hc hnp hn hn2 hfree
    have hstep : fuel + (j + 1) = (fuel + j) + 1 := by omega
    obtain ⟨hin, hE⟩ := hfree c (by omega) (by push_cast; omega)
    rw [hstep, FindEmptyLoop]
    simp only
    rw [if_pos (by omega), if_neg (by push_cast at hn; omega),
      GetMeta_eq ⟨d, cnt, c⟩ c hc (by omega)]
    simp only
    rw [if_pos hin]
    simp only
    rw [hE]
    have hb : (EMPTY == EMPTY) = true := by decide
    rw [if_pos hb, wrap64_of_range (c + 1) (by omega) (by omega),
      wrap64_of_range (np + 1) (by omega) (by push_cast at hn; omega)]
    rw [ih fuel (c + 1) (np + 1) (by omega) (by omega) (by push_cast at hn ⊢; omega) hn2
      (by
        intro p hp1 hp2
        exact hfree p (by omega) (by push_cast; omega))]
    have e1 : c + 1 + (j : Int) = c + ((j + 1 : Nat) : Int) := by push_cast; omega
    have e2 : np + 1 + (j : Int) = np + ((j + 1 : Nat) : Int) := by push_cast; omega
    rw [e1, e2]

theorem freeGrid_page (len : Nat) (p : Int) :
    (freeGrid len).byte (p * 4096).toNat = EMPTY := by
  have : (p * 4096).toNat % 4096 = 0 := by omega
  simp [freeGrid, this]

theorem FindEmpty_bigGrid :
    FindEmpty 4097 ⟨bigGrid, 0, 0⟩ 4096 = .ret (⟨bigGrid, 0, 4096⟩, 1, true) := by
  have h := FindEmptyLoop_free_run bigGrid 0 4096 (by decide) 4096 1 0 0 (by decide) (by decide)
    (by decide) (by decide)
    (by
      intro p hp1 hp2
      refine ⟨?_, freeGrid_page _ p⟩
      have : bigGrid.len = 16781312 := rfl
      rw [this]
      push_cast at hp2 ⊢
      omega)
  have e : (1 : Nat) + 4096 = 4097 := rfl
  rw [e] at h
  unfold FindEmpty
  rw [h]
  rfl

theorem Write_of_success (fuel : Nat) (m m1 m2 : Mapper) (b : List UInt8) (pos : Int)
    (h : FindEmpty fuel m (align (b.length : Int)) = .ret (m1, pos, true))
    (hw : write m1 (wrap64 (pos * PAGE)) (align (b.length : Int)) b = .ret m2) :
    Write fuel m b = .ret (m2, pos, none) := by
  unfold Write
  simp only [h, hw]

theorem Write_bigGrid :
    Write 4097 ⟨bigGrid, 0, 0⟩ tenBytes = .ret (⟨bigGridWritten, 0, 4096⟩, 1, none) := by
  have ha : align ((tenBytes.length : Nat) : Int) = 4096 := by decide
  apply Write_of_success 4097 ⟨bigGrid, 0, 0⟩ ⟨bigGrid, 0, 4096⟩
  · rw [ha]
    exact FindEmpty_bigGrid
  · rw [ha]
    rfl

/-- Claim C10. What a successful `FindEmpty` guarantees. For a store whose mapping
has at most `2^51` bytes (so that no page offset wraps) and whose cursor `c`
is not negative: if `FindEmpty n` returns `ok = true` and leaves the cursor at
`c'`, then `c' ≥ c + n`, each of the pages `c' - n, ..., c' - 1` lies inside the
mapping and carries the free marker, the returned index is `c' / PAGE`, and the
mapped data and the record count are those before the call. -/
theorem FindEmpty_success_guarantee (fuel : Nat) (m m' : Mapper) (n i : Int)
    (hlen : m.data.len ≤ 2251799813685248) (hc : 0 ≤ m.cursor)
    (h : FindEmpty fuel m n = .ret (m', i, true)) :
    m.cursor + n ≤ m'.cursor ∧
    (∀ p : Int, m'.cursor - n ≤ p → p < m'.cursor → pageFree m.data p) ∧
    i = Int.tdiv m'.cursor PAGE ∧ m'.data = m.data ∧ m'.count = m.count := by
  have := FindEmptyLoop_success n fuel m 0 m' i hlen (le_refl 0) hc
    (by intro p hp1 hp2; omega) h
  obtain ⟨a, b, c, d, e⟩ := this
  exact ⟨by omega, b, c, d, e⟩

theorem FindEmpty_occupiedThenFree :
    FindEmpty 3 ⟨occupiedThenFree, 0, 0⟩ 1 = .ret (⟨occupiedThenFree, 0, 2⟩, 0, true) := rfl

theorem FindEmpty_success_guarantee_witness :
    (0 : Int) + 1 ≤ 2 ∧
    (∀ p : Int, 2 - 1 ≤ p → p < 2 → pageFree occupiedThenFree p) ∧
    (0 : Int) = Int.tdiv 2 PAGE ∧ occupiedThenFree = occupiedThenFree ∧ (0 : Int) = 0 :=
  FindEmpty_success_guarantee 3 ⟨occupiedThenFree, 0, 0⟩ ⟨occupiedThenFree, 0, 2⟩ 1 0
    (by decide) (by decide) FindEmpty_occupiedThenFree

/-- Claim C1. On the grid of two pages whose page 0 is occupied and whose page 1 is
free, `FindEmpty 1` from cursor 0 reports success with index 0, the occupied
page, while the only free page is page 1; from cursor 1 it reports success with
index 0 again, which lies before the cursor. -/
theorem FindEmpty_returns_occupied_page :
    (FindEmpty 3 ⟨occupiedThenFree, 0, 0⟩ 1).returned.map (fun r => (r.2.1, r.2.2, r.1.cursor))
      = some (0, true, 2) ∧
    (FindEmpty 3 ⟨occupiedThenFree, 0, 1⟩ 1).returned.map (fun r => (r.2.1, r.2.2, r.1.cursor))
      = some (0, true, 2) ∧
    occupiedThenFree.byte 0 ≠ EMPTY ∧ occupiedThenFree.byte 4096 = EMPTY := by
  decide

/-- In a mapping of at least 256 bytes (every grid of at least one page), a scan
whose cursor is below the length in bytes never leaves the loop of `FindEmpty`
by its condition: the cursor counts pages and stays below the byte length. -/
theorem FindEmptyLoop_no_failure (n : Int) :
    ∀ (fuel : Nat) (m : Mapper) (np : Int) (m' : Mapper) (i : Int),
      256 ≤ m.data.len → m.data.len ≤ 2251799813685248 →
      0 ≤ m.cursor → m.cursor < (m.data.len : Int) →
      FindEmptyLoop fuel m n np ≠ .ret (m', i, false) := by
  intro fuel
  induction fuel with
  | zero =>
    intro m np m' i _ _ _ _ h
    simp [FindEmptyLoop] at h
  | succ fuel ih =>
    intro m np m' i h256 hlen hc hlt h
    rw [FindEmptyLoop, if_pos hlt] at h
    by_cases hn : np = n
    · rw [if_pos hn] at h
      simp at h
    · rw [if_neg hn, GetMeta_eq m m.cursor hc (by omega)] at h
      by_cases hin : m.cursor * 4096 + 1 < (m.data.len : Int)
      · rw [if_pos hin] at h
        simp only at h
        have hpg := UInt8.toNat_lt (m.data.byte (m.cursor * 4096 + 1).toNat)
        by_cases hE : (m.data.byte (m.cursor * 4096).toNat == EMPTY) = true
        · rw [if_pos hE, wrap64_of_range (m.cursor + 1) (by omega) (by omega)] at h
          exact ih { m with cursor := m.cursor + 1 } _ m' i h256 hlen
            (by simp only; omega) (by simp only; omega) h
        · rw [if_neg hE, wrap64_of_range _ (by omega) (by omega)] at h
          exact ih { m with cursor := m.cursor +
              ((m.data.byte (m.cursor * 4096 + 1).toNat).toNat : Int) } _ m' i h256 hlen
            (by simp only; omega) (by simp only; omega) h
      · rw [if_neg hin] at h
        simp at h

/-- The scanner cannot report failure on a grid of at least one page: with the
cursor inside the grid, `FindEmpty` either reports success, or panics, or is
still running. -/
theorem FindEmpty_never_reports_failure (fuel : Nat) (m m' : Mapper) (n i : Int)
    (h256 : 256 ≤ m.data.len) (hlen : m.data.len ≤ 2251799813685248)
    (hc : 0 ≤ m.cursor) (hlt : m.cursor < (m.data.len : Int)) :
    FindEmpty fuel m n ≠ .ret (m', i, false) :=
  FindEmptyLoop_no_failure n fuel m 0 m' i h256 hlen hc hlt

/-- Claim C8. On the grid of one occupied page (run length 1), which holds no free
page at all, `FindEmpty 1` from cursor 0 does not report failure: after the
occupied run the cursor is 1, still below the length 4096 in bytes, and the next
`GetMeta` indexes the mapping at offset 4096, out of range. More fuel does not
change the outcome. -/
theorem FindEmpty_faults_on_full_grid :
    FindEmpty 2 ⟨onePageOccupied, 0, 0⟩ 1 = .fault ∧
    FindEmpty 100 ⟨onePageOccupied, 0, 0⟩ 1 = .fault := by
  constructor <;> rfl

/-! ## The recovery loop -/

/-- In a mapping of at least 256 bytes the recovery loop never leaves by its
condition: the cursor counts pages and stays below the size in bytes. -/
theorem OpenMapperLoop_no_return :
    ∀ (fuel : Nat) (m m' : Mapper),
      256 ≤ m.data.len → m.data.len ≤ 2251799813685248 →
      0 ≤ m.cursor → m.cursor < (m.data.len : Int) →
      OpenMapperLoop fuel m (m.data.len : Int) ≠ .ret m' := by
  intro fuel
  induction fuel with
  | zero =>
    intro m m' _ _ _ _ h
    simp [OpenMapperLoop] at h
  | succ fuel ih =>
    intro m m' h256 hlen hc hlt h
    rw [OpenMapperLoop, if_pos hlt, GetMeta_eq m m.cursor hc (by omega)] at h
    by_cases hin : m.cursor * 4096 + 1 < (m.data.len : Int)
    · rw [if_pos hin] at h
      simp only at h
      have hpg := UInt8.toNat_lt (m.data.byte (m.cursor * 4096 + 1).toNat)
      by_cases hE : (m.data.byte (m.cursor * 4096).toNat == EMPTY) = true
      · rw [if_pos hE, wrap64_of_range (m.cursor + 1) (by omega) (by omega)] at h
        exact ih { m with cursor := m.cursor + 1 } m' h256 hlen
          (by simp only; omega) (by simp only; omega) h
      · rw [if_neg hE, wrap64_of_range (m.cursor + _) (by omega) (by omega)] at h
        exact ih { m with count := wrap64 (m.count + 1), cursor := m.cursor +
            ((m.data.byte (m.cursor * 4096 + 1).toNat).toNat : Int) } m' h256 hlen
          (by simp only; omega) (by simp only; omega) h
    · rw [if_neg hin] at h
      simp at h

/-- On every grid of at least one page (and shorter than `2^51` bytes) the
recovery scan of `OpenMapper` does not return: it panics or is still running. -/
theorem OpenMapper_never_returns (fuel : Nat) (data : MMap) (r : Mapper × Option String)
    (h256 : 256 ≤ data.len) (hlen : data.len ≤ 2251799813685248) :
    OpenMapper fuel data ≠ .ret r := by
  intro h
  unfold OpenMapper at h
  cases hl : OpenMapperLoop fuel ⟨data, 0, 0⟩ (data.len : Int) with
  | ret m' =>
    exact OpenMapperLoop_no_return fuel ⟨data, 0, 0⟩ m' h256 hlen (le_refl 0)
      (by simp only; omega) hl
  | fault => rw [hl] at h; simp at h
  | timeout => rw [hl] at h; simp at h

/-- Walking over `j` free pages in a row takes the recovery loop `j` iterations. -/
theorem OpenMapperLoop_free_run (d : MMap) (cnt size : Int) (hlen : d.len ≤ 2251799813685248) :
    ∀ (j fuel : Nat) (c : Int), 0 ≤ c → c + j ≤ size →
      (∀ p : Int, c ≤ p → p < c + j →
        p * 4096 + 1 < (d.len : Int) ∧ d.byte (p * 4096).toNat = EMPTY) →
      OpenMapperLoop (fuel + j) ⟨d, cnt, c⟩ size = OpenMapperLoop fuel ⟨d, cnt, c + j⟩ size := by
  intro j
  induction j with
  | zero =>
    intro fuel c _ _ _
    simp
  | succ j ih =>
    intro fuel c hc hs hfree
    have hstep : fuel + (j + 1) = (fuel + j) + 1 := by omega
    obtain ⟨hin, hE⟩ := hfree c (by omega) (by push_cast; omega)
    rw [hstep, OpenMapperLoop]
    simp only
    rw [if_pos (by push_cast at hs; omega), GetMeta_eq ⟨d, cnt, c⟩ c hc (by omega)]
    simp only
    rw [if_pos hin]
    simp only
    rw [hE]
    have hb : (EMPTY == EMPTY) = true := by decide
    rw [if_pos hb, wrap64_of_range (c + 1) (by omega) (by omega)]
    rw [ih fuel (c + 1) (by omega) (by push_cast at hs ⊢; omega)
      (by
        intro p hp1 hp2
        exact hfree p (by omega) (by push_cast; omega))]
    have e1 : c + 1 + (j : Int) = c + ((j + 1 : Nat) : Int) := by push_cast; omega
    rw [e1]

theorem OpenMapperLoop_newFile :
    OpenMapperLoop 1026 ⟨newFile, 0, 0⟩ (newFile.len : Int) = .fault := by
  have h := OpenMapperLoop_free_run newFile 0 (newFile.len : Int) (by decide) 1024 2 0
    (by decide) (by decide)
    (by
      intro p hp1 hp2
      refine ⟨?_, freeGrid_page _ p⟩
      have : newFile.len = 4194304 := rfl
      rw [this]
      push_cast at hp2 ⊢
      omega)
  have e : (2 : Nat) + 1024 = 1026 := rfl
  rw [e] at h
  rw [h]
  rfl

theorem OpenMapper_of_loop_fault (fuel : Nat) (data : MMap)
    (h : OpenMapperLoop fuel ⟨data, 0, 0⟩ (data.len : Int) = .fault) :
    OpenMapper fuel data = .fault := by
  unfold OpenMapper
  rw [h]

/-- Claim C5. On the file `OpenMapper` creates (4 MB, 1024 free pages) the recovery
scan does not produce a count: after the 1024 free pages the cursor is 1024,
still below the size 4194304 in bytes, and `GetMeta` indexes the mapping at
offset 4194304, out of range. The same happens on a grid of one free page. -/
theorem OpenMapper_faults_on_new_file :
    OpenMapper 1026 newFile = .fault ∧ OpenMapper 3 (freeGrid 4096) = .fault :=
  ⟨OpenMapper_of_loop_fault 1026 newFile OpenMapperLoop_newFile, rfl⟩

/-- At an occupied header whose run-length byte is 0 the recovery loop adds 0 to
the cursor and stays at the same page, whatever the fuel. -/
theorem OpenMapperLoop_stuck (d : MMap) (size c : Int) (h0 : 0 ≤ c)
    (hs : c < size) (hlen : d.len ≤ 2251799813685248) (hin : c * 4096 + 1 < (d.len : Int))
    (hocc : d.byte (c * 4096).toNat ≠ EMPTY) (hz : d.byte (c * 4096 + 1).toNat = 0) :
    ∀ (fuel : Nat) (cnt : Int), OpenMapperLoop fuel ⟨d, cnt, c⟩ size = .timeout := by
  intro fuel
  induction fuel with
  | zero => intro cnt; rfl
  | succ fuel ih =>
    intro cnt
    rw [OpenMapperLoop]
    simp only
    rw [if_pos hs, GetMeta_eq ⟨d, cnt, c⟩ c h0 (by omega)]
    simp only
    rw [if_pos hin]
    simp only
    have hE : ¬ ((d.byte (c * 4096).toNat == EMPTY) = true) := by simpa using hocc
    rw [if_neg hE, hz]
    have e : wrap64 (c + ((0 : UInt8).toNat : Int)) = c := by
      have : ((0 : UInt8).toNat : Int) = 0 := by decide
      rw [this]
      exact wrap64_of_range (c + 0) (by omega) (by omega) |>.trans (by omega)
    rw [e]
    exact ih (wrap64 (cnt + 1))

/-- Fuel only matters while the loop is running: a loop still running with more
fuel is still running with less. -/
theorem OpenMapperLoop_timeout_pred (size : Int) :
    ∀ (fuel : Nat) (m : Mapper), OpenMapperLoop (fuel + 1) m size = .timeout →
      OpenMapperLoop fuel m size = .timeout := by
  intro fuel
  induction fuel with
  | zero => intro m _; rfl
  | succ fuel ih =>
    intro m h
    rw [OpenMapperLoop] at h ⊢
    by_cases hlt : m.cursor < size
    · rw [if_pos hlt] at h ⊢
      cases hg : GetMeta m m.cursor with
      | timeout => rfl
      | fault => rw [hg] at h; simp at h
      | ret o =>
        rw [hg] at h
        cases o with
        | none => simp at h
        | some pm =>
          simp only at h ⊢
          by_cases hE : pm.IsEmpty = true
          · rw [if_pos hE] at h ⊢
            exact ih _ h
          · rw [if_neg hE] at h ⊢
            exact ih _ h
    · rw [if_neg hlt] at h
      simp at h

theorem OpenMapperLoop_timeout_le (size : Int) :
    ∀ (j fuel : Nat) (m : Mapper), OpenMapperLoop (fuel + j) m size = .timeout →
      OpenMapperLoop fuel m size = .timeout := by
  intro j
  induction j with
  | zero => intro fuel m h; simpa using h
  | succ j ih =>
    intro fuel m h
    have e : fuel + (j + 1) = (fuel + j) + 1 := by omega
    rw [e] at h
    exact ih fuel m (OpenMapperLoop_timeout_pred size (fuel + j) m h)

/-- A page the recovery walk visits is reached by the loop after some number of
iterations. -/
theorem RecoveryVisits_reached (d : MMap) (hlen : d.len ≤ 2251799813685248) (c : Int)
    (hv : RecoveryVisits d c) :
    0 ≤ c ∧ ∃ (k : Nat) (cnt : Int), ∀ fuel : Nat,
      OpenMapperLoop (fuel + k) ⟨d, 0, 0⟩ (d.len : Int) =
        OpenMapperLoop fuel ⟨d, cnt, c⟩ (d.len : Int) := by
  induction hv with
  | start => exact ⟨le_refl 0, 0, 0, fun fuel => rfl⟩
  | @afterFree c _ h0 hin hE ih =>
    obtain ⟨_, k, cnt, hk⟩ := ih
    refine ⟨by omega, k + 1, cnt, ?_⟩
    intro fuel
    have e : fuel + (k + 1) = (fuel + 1) + k := by omega
    rw [e, hk (fuel + 1), OpenMapperLoop]
    simp only
    rw [if_pos (by omega), GetMeta_eq ⟨d, cnt, c⟩ c h0 (by omega)]
    simp only
    rw [if_pos hin]
    simp only
    rw [hE]
    have hb : (EMPTY == EMPTY) = true := by decide
    rw [if_pos hb, wrap64_of_range (c + 1) (by omega) (by omega)]
  | @afterRun c _ h0 hin hE ih =>
    obtain ⟨_, k, cnt, hk⟩ := ih
    have hpg := UInt8.toNat_lt (d.byte (c * 4096 + 1).toNat)
    refine ⟨by omega, k + 1, wrap64 (cnt + 1), ?_⟩
    intro fuel
    have e : fuel + (k + 1) = (fuel + 1) + k := by omega
    rw [e, hk (fuel + 1), OpenMapperLoop]
    simp only
    rw [if_pos (by omega), GetMeta_eq ⟨d, cnt, c⟩ c h0 (by omega)]
    simp only
    rw [if_pos hin]
    simp only
    have hE2 : ¬ ((d.byte (c * 4096).toNat == EMPTY) = true) := by simpa using hE
    rw [if_neg hE2, wrap64_of_range (c + _) (by omega) (by omega)]

theorem OpenMapper_of_loop_timeout (fuel : Nat) (data : MMap)
    (h : OpenMapperLoop fuel ⟨data, 0, 0⟩ (data.len : Int) = .timeout) :
    OpenMapper fuel data = .timeout := by
  unfold OpenMapper
  rw [h]

/-- The recovery scan has no error path: what it returns carries a nil error. -/
theorem OpenMapper_error_nil (fuel : Nat) (data : MMap) :
    (OpenMapper fuel data).returned.bind (fun r => r.2) = none := by
  unfold OpenMapper
  cases OpenMapperLoop fuel ⟨data, 0, 0⟩ (data.len : Int) <;> rfl

/-- Claim C9. The recovery scan validates no header and has no error path. When
the walk from page 0 visits an occupied page (marker other than `0xC1`, header
inside the mapping) whose run-length byte is 0, the loop adds 0 to the cursor
for ever: whatever the fuel, `OpenMapper` is still running; and whatever
`OpenMapper` returns on any mapping carries a nil error. -/
theorem OpenMapper_zero_run_never_terminates (data : MMap) (c : Int)
    (hlen : data.len ≤ 2251799813685248) (hv : RecoveryVisits data c)
    (hin : c * 4096 + 1 < (data.len : Int))
    (hocc : data.byte (c * 4096).toNat ≠ EMPTY)
    (hz : data.byte (c * 4096 + 1).toNat = 0) :
    (∀ fuel : Nat, OpenMapper fuel data = .timeout) ∧
    (∀ (fuel : Nat) (d : MMap), (OpenMapper fuel d).returned.bind (fun r => r.2) = none) := by
  obtain ⟨h0, k, cnt, hk⟩ := RecoveryVisits_reached data hlen c hv
  refine ⟨?_, fun fuel d => OpenMapper_error_nil fuel d⟩
  intro fuel
  apply OpenMapper_of_loop_timeout
  apply OpenMapperLoop_timeout_le (data.len : Int) k fuel
  rw [hk fuel]
  exact OpenMapperLoop_stuck data (data.len : Int) c h0 (by omega) hlen hin hocc hz fuel cnt

theorem OpenMapper_zero_run_never_terminates_witness :
    (∀ fuel : Nat, OpenMapper fuel zeroRunPage = .timeout) ∧
    (∀ (fuel : Nat) (d : MMap), (OpenMapper fuel d).returned.bind (fun r => r.2) = none) :=
  OpenMapper_zero_run_never_terminates zeroRunPage 0 (by decide) RecoveryVisits.start
    (by decide) (by decide) (by decide)

/-- Claim C9, counterexample. On the grid of one page whose header is occupied
(marker `0x00`) with run length 0, the recovery scan returns nothing, neither a
store nor an error: it is still running whatever the fuel. -/
theorem OpenMapper_zeroRunPage_loops :
    zeroRunPage.byte 0 ≠ EMPTY ∧ zeroRunPage.byte 1 = 0 ∧
    ∀ fuel : Nat, OpenMapper fuel zeroRunPage = .timeout :=
  ⟨by decide, by decide, fun fuel =>
    OpenMapper_of_loop_timeout fuel zeroRunPage
      (OpenMapperLoop_stuck zeroRunPage (zeroRunPage.len : Int) 0 (le_refl 0) (by decide)
        (by decide) (by decide) (by decide) (by decide) fuel 0)⟩

/-! ## Writing a record -/

/-- What a returning `write` at a page-aligned offset has done: the offset lies
inside the mapping, byte `off + 1` holds `byte(pgs)`, the payload follows from
`off + 2`, and no other byte has changed. -/
theorem write_ret (m m2 : Mapper) (off pgs q : Int) (b : List UInt8)
    (hq : off = q * 4096)
    (h1 : -9223372036854775808 ≤ off) (h2 : off < 9223372036854775808)
    (hp1 : (b.length : Int) + 2 ≤ pgs) (hp2 : pgs < 9223372036854775808)
    (h : write m off pgs b = .ret m2) :
    0 ≤ off ∧ off + 2 + (b.length : Int) ≤ (m.data.len : Int) ∧
    m2.data.len = m.data.len ∧ m2.count = m.count ∧ m2.cursor = m.cursor ∧
    (∀ k : Nat, k < b.length → m2.data.byte (off + 2 + (k : Int)).toNat = b.getD k 0) ∧
    m2.data.byte (off + 1).toNat = UInt8.ofNat (toU64 pgs) ∧
    (∀ j : Nat, (j < (off + 1).toNat ∨ (off + 2 + (b.length : Int)).toNat ≤ j) →
      m2.data.byte j = m.data.byte j) ∧
    off + 2 + pgs ≤ (m.data.len : Int) := by
  have e1 : wrap64 (off + 1) = off + 1 := wrap64_of_range _ (by omega) (by omega)
  have e2 : wrap64 (off + 2) = off + 2 := wrap64_of_range _ (by omega) (by omega)
  unfold write at h
  rw [e1, e2] at h
  unfold MMap.store at h
  by_cases hs : 0 ≤ off + 1 ∧ off + 1 < (m.data.len : Int)
  · rw [if_pos hs] at h
    simp only at h
    unfold MMap.copyInto at h
    simp only at h
    by_cases hcp : 0 ≤ off + 2 ∧ off + 2 ≤ wrap64 (off + 2 + pgs) ∧
        wrap64 (off + 2 + pgs) ≤ (m.data.len : Int)
    · rw [if_pos hcp] at h
      simp only at h
      injection h with h
      subst h
      have hhi : wrap64 (off + 2 + pgs) = off + 2 + pgs := by
        have := hcp.2.1
        unfold wrap64 at this ⊢
        omega
      rw [hhi] at hcp
      have hmin : min (off + 2 + pgs - (off + 2)).toNat b.length = b.length := by
        apply min_eq_right
        omega
      simp only [hhi, hmin]
      refine ⟨by omega, by omega, trivial, trivial, trivial, ?_, ?_, ?_, by omega⟩
      · intro k hk
        have c1 : (off + 2).toNat ≤ (off + 2 + (k : Int)).toNat ∧
            (off + 2 + (k : Int)).toNat < (off + 2).toNat + b.length := by omega
        rw [if_pos c1]
        congr 1
        omega
      · have c1 : ¬ ((off + 2).toNat ≤ (off + 1).toNat ∧
            (off + 1).toNat < (off + 2).toNat + b.length) := by omega
        rw [if_neg c1, if_pos trivial]
      · intro j hj
        have c1 : ¬ ((off + 2).toNat ≤ j ∧ j < (off + 2).toNat + b.length) := by omega
        have c2 : ¬ (j = (off + 1).toNat) := by omega
        rw [if_neg c1, if_neg c2]
    · rw [if_neg hcp] at h
      simp at h
  · rw [if_neg hs] at h
    simp at h

/-- With a negative size the slice `m.data[off+2 : off+2+pgs]` has its upper
bound below its lower bound: `write` does not return. -/
theorem write_negative_size (m m2 : Mapper) (off pgs q : Int) (b : List UInt8)
    (hq : off = q * 4096)
    (h1 : -9223372036854775808 ≤ off) (h2 : off < 9223372036854775808)
    (hp1 : pgs < 0) (hp2 : -9223372036854775808 ≤ pgs) :
    write m off pgs b ≠ .ret m2 := by
  intro h
  have e1 : wrap64 (off + 1) = off + 1 := wrap64_of_range _ (by omega) (by omega)
  have e2 : wrap64 (off + 2) = off + 2 := wrap64_of_range _ (by omega) (by omega)
  unfold write at h
  rw [e1, e2] at h
  unfold MMap.store at h
  by_cases hs : 0 ≤ off + 1 ∧ off + 1 < (m.data.len : Int)
  · rw [if_pos hs] at h
    simp only at h
    unfold MMap.copyInto at h
    simp only at h
    have e3 : wrap64 (off + 2 + pgs) = off + 2 + pgs :=
      wrap64_of_range _ (by omega) (by omega)
    rw [e3, if_neg (by omega)] at h
    simp at h
  · rw [if_neg hs] at h
    simp at h

/-- The index `FindEmpty` returns is the cursor it leaves divided by the page
size; a cursor that fits an `int` before the call fits one after it; the data
and the count are untouched; and a reported failure leaves the cursor at or
past the length of the mapping in bytes. -/
theorem FindEmptyLoop_index (n : Int) :
    ∀ (fuel : Nat) (m : Mapper) (np : Int) (m1 : Mapper) (pos : Int) (ok : Bool),
      -9223372036854775808 ≤ m.cursor → m.cursor < 9223372036854775808 →
      FindEmptyLoop fuel m n np = .ret (m1, pos, ok) →
      pos = Int.tdiv m1.cursor PAGE ∧
      -9223372036854775808 ≤ m1.cursor ∧ m1.cursor < 9223372036854775808 ∧
      m1.data = m.data ∧ m1.count = m.count ∧
      (ok = false → (m1.data.len : Int) ≤ m1.cursor) := by
  intro fuel
  induction fuel with
  | zero =>
    intro m np m1 pos ok _ _ h
    simp [FindEmptyLoop] at h
  | succ fuel ih =>
    intro m np m1 pos ok hc1 hc2 h
    rw [FindEmptyLoop] at h
    by_cases hlt : m.cursor < (m.data.len : Int)
    · rw [if_pos hlt] at h
      by_cases hn : np = n
      · rw [if_pos hn] at h
        injection h with h
        injection h with h1 h2
        injection h2 with h2 h3
        subst h1
        subst h3
        exact ⟨h2.symm, hc1, hc2, rfl, rfl, fun hf => by simp at hf⟩
      · rw [if_neg hn] at h
        cases hg : GetMeta m m.cursor with
        | timeout => rw [hg] at h; simp at h
        | fault => rw [hg] at h; simp at h
        | ret o =>
          rw [hg] at h
          cases o with
          | none => simp at h
          | some pm =>
            simp only at h
            by_cases hE : pm.IsEmpty = true
            · rw [if_pos hE] at h
              exact ih { m with cursor := wrap64 (m.cursor + 1) } _ m1 pos ok
                (wrap64_range _).1 (wrap64_range _).2 h
            · rw [if_neg hE] at h
              exact ih { m with cursor := wrap64 (m.cursor + pm.PgCount) } _ m1 pos ok
                (wrap64_range _).1 (wrap64_range _).2 h
    · rw [if_neg hlt] at h
      injection h with h
      injection h with h1 h2
      injection h2 with h2 h3
      subst h1
      exact ⟨h2.symm, hc1, hc2, rfl, rfl, fun _ => by omega⟩

/-- The byte offset `pos * PAGE` of the page `pos = cursor / PAGE` does not wrap. -/
theorem page_offset (c : Int) (hc1 : -9223372036854775808 ≤ c) (hc2 : c < 9223372036854775808) :
    wrap64 (Int.tdiv c PAGE * PAGE) = Int.tdiv c PAGE * 4096 ∧
    -9223372036854775808 ≤ Int.tdiv c PAGE * 4096 ∧
    Int.tdiv c PAGE * 4096 < 9223372036854775808 := by
  have hP : PAGE = 4096 := by decide
  rw [hP]
  have hb : -9223372036854775808 ≤ Int.tdiv c 4096 * 4096 ∧
      Int.tdiv c 4096 * 4096 < 9223372036854775808 := by
    rcases le_or_lt 0 c with h | h
    · rw [Int.tdiv_eq_ediv h (by decide)]
      omega
    · have e : Int.tdiv c 4096 = -((-c) / 4096) := by
        have := Int.neg_tdiv (-c) 4096
        rw [neg_neg] at this
        rw [this, Int.tdiv_eq_ediv (by omega) (by decide)]
      rw [e]
      omega
  exact ⟨wrap64_of_range _ hb.1 hb.2, hb⟩

/-- A returning `Write` has run `FindEmpty` and then `write` at the page it
returned, and its error is nil. -/
theorem Write_ret (fuel : Nat) (m m' : Mapper) (b : List UInt8) (i : Int) (e : Option String)
    (h : Write fuel m b = .ret (m', i, e)) :
    e = none ∧ ∃ (m1 : Mapper) (ok : Bool),
      FindEmpty fuel m (align (b.length : Int)) = .ret (m1, i, ok) ∧
      write m1 (wrap64 (i * PAGE)) (align (b.length : Int)) b = .ret m' := by
  unfold Write at h
  simp only at h
  cases hf : FindEmpty fuel m (align (b.length : Int)) with
  | timeout => rw [hf] at h; simp at h
  | fault => rw [hf] at h; simp at h
  | ret r =>
    obtain ⟨m1, pos, ok⟩ := r
    rw [hf] at h
    cases ok with
    | true =>
      simp only at h
      cases hw : write m1 (wrap64 (pos * PAGE)) (align (b.length : Int)) b with
      | timeout => rw [hw] at h; simp at h
      | fault => rw [hw] at h; simp at h
      | ret m2 =>
        rw [hw] at h
        simp only at h
        injection h with h
        injection h with h1 h2
        injection h2 with h2 h3
        subst h1 h2
        exact ⟨h3.symm, m1, true, rfl, hw⟩
    | false =>
      simp only [grow] at h
      cases hw : write m1 (wrap64 (pos * PAGE)) (align (b.length : Int)) b with
      | timeout => rw [hw] at h; simp at h
      | fault => rw [hw] at h; simp at h
      | ret m2 =>
        rw [hw] at h
        simp only at h
        injection h with h
        injection h with h1 h2
        injection h2 with h2 h3
        subst h1 h2
        exact ⟨h3.symm, m1, false, rfl, hw⟩

/-- The size `align` computes for a payload holds the header and the payload. -/
theorem align_bounds (s : Int) (h0 : 0 ≤ s) (h1 : s + 4097 < 9223372036854775808) :
    s + 2 ≤ align s ∧ align s < s + 4098 ∧ align s % 4096 = 0 := by
  rcases lt_or_eq_of_le h0 with hpos | hz
  · rw [align_pos_size s hpos h1]
    omega
  · subst hz
    decide

/-- What every returning `Write` leaves at page `i`: the payload from byte 2 on,
the byte `byte(pgs)` of the aligned size, which is 0, at byte 1, and the marker
byte as it was before the call. -/
theorem Write_effect (fuel : Nat) (m m' : Mapper) (b : List UInt8) (i : Int) (e : Option String)
    (hc1 : -9223372036854775808 ≤ m.cursor) (hc2 : m.cursor < 9223372036854775808)
    (hb : (b.length : Int) < 9223372036854775808)
    (h : Write fuel m b = .ret (m', i, e)) :
    0 ≤ i ∧ i * 4096 + 2 + (b.length : Int) ≤ (m'.data.len : Int) ∧
    (∀ k : Nat, k < b.length → m'.data.byte (i * 4096 + 2 + (k : Int)).toNat = b.getD k 0) ∧
    m'.data.byte (i * 4096 + 1).toNat = 0 ∧
    m'.data.byte (i * 4096).toNat = m.data.byte (i * 4096).toNat := by
  obtain ⟨_, m1, ok, hf, hw⟩ := Write_ret fuel m m' b i e h
  obtain ⟨hi, hr1, hr2, hd, _, _⟩ := FindEmptyLoop_index _ fuel m 0 m1 i ok hc1 hc2 hf
  obtain ⟨ho1, ho2, ho3⟩ := page_offset m1.cursor hr1 hr2
  rw [← hi] at ho1 ho2 ho3
  rw [ho1] at hw
  by_cases hsmall : (b.length : Int) + 4097 < 9223372036854775808
  swap
  · obtain ⟨hn1, hn2⟩ := align_large (b.length : Int) (by omega) hb
    exact absurd hw (write_negative_size m1 m' (i * 4096) _ i b rfl ho2 ho3 hn1 hn2)
  obtain ⟨ha1, ha2, ha3⟩ := align_bounds (b.length : Int) (by omega) hsmall
  obtain ⟨w1, w2, w3, _, _, w6, w7, w8, _⟩ :=
    write_ret m1 m' (i * 4096) (align (b.length : Int)) i b rfl ho2 ho3 ha1 (by omega) hw
  refine ⟨by omega, by omega, w6, ?_, ?_⟩
  · rw [w7]
    have : toU64 (align (b.length : Int)) % 256 = 0 := by
      unfold toU64
      omega
    apply UInt8.ext
    show (toU64 (align (b.length : Int))) % 256 = 0
    exact this
  · rw [← hd]
    apply w8
    left
    omega

/-- Claim C2. Round trip of `Write`. For a store whose cursor is an `int` and a
payload `b` whose length is an `int`: if `Write b` returns index `i`
with a nil error, then afterwards the bytes of the mapping at positions
`i * 4096 + 2` up to `i * 4096 + 2 + len b`, which lie inside the mapping, are
those of `b`. -/
theorem Write_round_trip (fuel : Nat) (m m' : Mapper) (b : List UInt8) (i : Int)
    (hc1 : -9223372036854775808 ≤ m.cursor) (hc2 : m.cursor < 9223372036854775808)
    (hb : (b.length : Int) < 9223372036854775808)
    (h : Write fuel m b = .ret (m', i, none)) :
    0 ≤ i ∧ i * 4096 + 2 + (b.length : Int) ≤ (m'.data.len : Int) ∧
    ∀ (k : Nat) (hk : k < b.length),
      m'.data.byte (i * 4096 + 2 + (k : Int)).toNat = b.get ⟨k, hk⟩ := by
  obtain ⟨h1, h2, h3, _⟩ := Write_effect fuel m m' b i none hc1 hc2 hb h
  refine ⟨h1, h2, ?_⟩
  intro k hk
  rw [h3 k hk, List.getD_eq_getElem b 0 hk]
  rfl

theorem Write_round_trip_witness :
    (0 : Int) ≤ 1 ∧ (1 : Int) * 4096 + 2 + (tenBytes.length : Int) ≤ (bigGridWritten.len : Int) ∧
    ∀ (k : Nat) (hk : k < tenBytes.length),
      bigGridWritten.byte ((1 : Int) * 4096 + 2 + (k : Int)).toNat = tenBytes.get ⟨k, hk⟩ :=
  Write_round_trip 4097 ⟨bigGrid, 0, 0⟩ ⟨bigGridWritten, 0, 4096⟩ tenBytes 1
    (by decide) (by decide) (by decide) Write_bigGrid

/-- Claim C3. On the grid of 4097 free pages `Write` of ten bytes returns index 1
with a nil error, and afterwards the marker byte of page 1 is still the free
sentinel `0xC1`: `GetMeta 1` reports `IsEmpty = true`. `write` stores bytes from
offset `off + 1` on and never the marker at `off`. -/
theorem Write_leaves_page_free :
    ∃ m' : Mapper, Write 4097 ⟨bigGrid, 0, 0⟩ tenBytes = .ret (m', 1, none) ∧
      m'.data.byte 4096 = EMPTY ∧
      (GetMeta m' 1).returned.map (fun o => o.map (fun pm => pm.IsEmpty)) = some (some true) :=
  ⟨⟨bigGridWritten, 0, 4096⟩, Write_bigGrid, by decide, by decide⟩

/-- Claim C4. On the grid of 4097 free pages `Write` of ten bytes returns index 1
with a nil error, and afterwards byte 1 of page 1 is 0, not the page count 1 of
the record: `write` stores `byte(pgs)` where `pgs = align 10 = 4096` is the
aligned size in bytes. -/
theorem Write_run_length_byte_zero :
    ∃ m' : Mapper, Write 4097 ⟨bigGrid, 0, 0⟩ tenBytes = .ret (m', 1, none) ∧
      m'.data.byte (1 * 4096 + 1) = 0 ∧ align 10 = 4096 ∧
      ((10 : Int) + 2 + 4095) / 4096 = 1 :=
  ⟨⟨bigGridWritten, 0, 4096⟩, Write_bigGrid, by decide, by decide, by decide⟩

/-- The run-length byte after any returning `Write` is 0, whatever the payload. -/
theorem Write_run_length_byte_always_zero (fuel : Nat) (m m' : Mapper) (b : List UInt8)
    (i : Int) (e : Option String)
    (hc1 : -9223372036854775808 ≤ m.cursor) (hc2 : m.cursor < 9223372036854775808)
    (hb : (b.length : Int) < 9223372036854775808)
    (h : Write fuel m b = .ret (m', i, e)) :
    m'.data.byte (i * 4096 + 1).toNat = 0 :=
  (Write_effect fuel m m' b i e hc1 hc2 hb h).2.2.2.1

/-- The method `Write` never stores a marker: the first byte of the page it
returns is the byte that was there before the call. -/
theorem Write_marker_unchanged (fuel : Nat) (m m' : Mapper) (b : List UInt8)
    (i : Int) (e : Option String)
    (hc1 : -9223372036854775808 ≤ m.cursor) (hc2 : m.cursor < 9223372036854775808)
    (hb : (b.length : Int) < 9223372036854775808)
    (h : Write fuel m b = .ret (m', i, e)) :
    m'.data.byte (i * 4096).toNat = m.data.byte (i * 4096).toNat :=
  (Write_effect fuel m m' b i e hc1 hc2 hb h).2.2.2.2

/-- The method `Write` has no error path of its own: what it returns carries a nil error. -/
theorem Write_error_nil (fuel : Nat) (m : Mapper) (b : List UInt8) :
    (Write fuel m b).returned.bind (fun r => r.2.2) = none := by
  cases h : Write fuel m b with
  | timeout => rfl
  | fault => rfl
  | ret r =>
    obtain ⟨m', i, e⟩ := r
    obtain ⟨he, _⟩ := Write_ret fuel m m' b i e h
    subst he
    rfl

/-- After a failed scan `grow` returns nil and `Write` goes on to `write`. -/
theorem Write_of_failure (fuel : Nat) (m m1 : Mapper) (b : List UInt8) (pos : Int)
    (h : FindEmpty fuel m (align (b.length : Int)) = .ret (m1, pos, false)) :
    Write fuel m b =
      (match write m1 (wrap64 (pos * PAGE)) (align (b.length : Int)) b with
        | .ret m2 => .ret (m2, pos, none)
        | .fault => .fault
        | .timeout => .timeout) := by
  unfold Write
  simp only [h, grow]
  cases write m1 (wrap64 (pos * PAGE)) (align (b.length : Int)) b <;> rfl

/-- The method `write` has no loop: it returns or panics. -/
theorem write_ne_timeout (m : Mapper) (off pgs : Int) (b : List UInt8) :
    write m off pgs b ≠ .timeout := by
  unfold write
  cases m.data.store (wrap64 (off + 1)) (UInt8.ofNat (toU64 pgs)) with
  | none => simp
  | some d1 =>
    simp only
    cases d1.copyInto (wrap64 (off + 2)) (wrap64 (wrap64 (off + 2) + pgs)) b <;> simp

/-- After a failed scan the cursor is at or past the end of the mapping, the
page `cursor / PAGE` has fewer than `align (len b)` bytes left, and the `write`
that `Write` goes on to panics: out of space ends in a panic, not in an error. -/
theorem Write_faults_after_failed_scan (fuel : Nat) (m m1 : Mapper) (b : List UInt8) (pos : Int)
    (hc1 : -9223372036854775808 ≤ m.cursor) (hc2 : m.cursor < 9223372036854775808)
    (hb : (b.length : Int) < 9223372036854775808)
    (h : FindEmpty fuel m (align (b.length : Int)) = .ret (m1, pos, false)) :
    Write fuel m b = .fault := by
  rw [Write_of_failure fuel m m1 b pos h]
  obtain ⟨hi, hr1, hr2, _, _, hend⟩ := FindEmptyLoop_index _ fuel m 0 m1 pos false hc1 hc2 h
  have hend := hend rfl
  obtain ⟨ho1, ho2, ho3⟩ := page_offset m1.cursor hr1 hr2
  rw [← hi] at ho1 ho2 ho3
  rw [ho1]
  cases hw : write m1 (pos * 4096) (align (b.length : Int)) b with
  | timeout => exact absurd hw (write_ne_timeout _ _ _ _)
  | fault => rfl
  | ret m2 =>
    exfalso
    by_cases hsmall : (b.length : Int) + 4097 < 9223372036854775808
    swap
    · obtain ⟨hn1, hn2⟩ := align_large (b.length : Int) (by omega) hb
      exact write_negative_size m1 m2 (pos * 4096) _ pos b rfl ho2 ho3 hn1 hn2 hw
    obtain ⟨ha1, ha2, ha3⟩ := align_bounds (b.length : Int) (by omega) hsmall
    obtain ⟨w1, _, _, _, _, _, _, _, w9⟩ :=
      write_ret m1 m2 (pos * 4096) (align (b.length : Int)) pos b rfl ho2 ho3 ha1 (by omega) hw
    have hpos : pos = m1.cursor / 4096 := by
      have hP : PAGE = 4096 := by decide
      rw [hi, hP, Int.tdiv_eq_ediv (by omega) (by decide)]
    omega

/-- Claim C7. On the grid of one occupied page, which has no free page, `Write` of
ten bytes from cursor 0 returns no error: the scan moves the cursor to 1, still
below the length 4096 in bytes, and `GetMeta` indexes the mapping at offset
4096, out of range, so `Write` panics. The method `grow` is a stub that returns
nil. With the cursor past the mapping `FindEmpty` does report failure, at index
1; `grow` adds nothing and returns nil, and `write` indexes the mapping at
offset 4097, out of range: again a panic and no error. -/
theorem Write_reports_no_error :
    Write 100 ⟨onePageOccupied, 1, 0⟩ tenBytes = .fault ∧
    (grow ⟨onePageOccupied, 1, 0⟩).2 = none ∧
    (FindEmpty 1 ⟨onePageOccupied, 1, 4096⟩ (align (tenBytes.length : Int))).returned.map
      (fun r => (r.2.1, r.2.2)) = some (1, false) ∧
    Write 1 ⟨onePageOccupied, 1, 4096⟩ tenBytes = .fault :=
  ⟨rfl, rfl, by decide, rfl⟩

end Mapperoni
